import Mathlib

/-!
Shallow embedding of the request-admission / rate-limiting layer of the
repository, src/backend/app/rate_limiter.py (class RateLimiter).

Modelling conventions:

* Wall-clock values: the in-memory backend compares fractional seconds
  (time.time() returns a float), so its timestamps are rationals; the Redis
  backend truncates to whole seconds (now = int(time.time())), so its
  timestamps are integers.  Claims settled here do not hinge on binary
  floating-point rounding, only on the ordering of timestamps, which the
  rational model captures exactly.
* The Redis sorted set behind a key stores members str(now) with score now
  (line 83: zadd(key, left-brace str(now): now right-brace)).  The member
  string determines the score and vice versa, so a per-key list of distinct
  integers is a faithful representation; zadd is insert-if-absent (adding an
  existing member only rewrites its identical score).  expire (line 85) only
  sets a TTL, which never fires within a single check call; it is kept as a
  possible failure point but has no effect on the data.
* A shared-store failure (redis.RedisError, caught at line 89) is injected
  through an explicit parameter naming the first command of the call that
  raises; commands before it take effect, commands from it on do not.
* Unexpected Python exceptions (AttributeError when request.client is None at
  line 138, or an arbitrary fault forced inside the counting logic) are
  modelled with Except; the catch-all at lines 56-59 is the outer match in
  check_rate_limit.
* self.redis itself is folded into the redis_available flag: the code only
  consults it through the test `self.redis_available and self.redis`
  (line 51), which is true exactly when the constructor ping succeeded and no
  failover has happened since.
-/

/-- Association-list update: the model of a Python dict item assignment
(`d[k] = v`).  Replaces the binding of `k` if present, else appends it. -/
def alistSet {α : Type} (l : List (String × α)) (k : String) (v : α) :
    List (String × α) :=
  match l with
  | [] => [(k, v)]
  | (k2, v2) :: t => if k2 == k then (k, v) :: t else (k2, v2) :: alistSet t k v

/-- State of a RateLimiter instance (rate_limiter.py lines 13-35). -/
structure RateLimiter where
  redis_available : Bool
  window_size : Int
  max_requests : List (String × Nat)
  memory_cache : List (String × List Rat)
  cache_cleanup_interval : Int
deriving DecidableEq

/-- __init__ (lines 14-35): the constructor takes only the store URL; the probe
outcome (ping success) decides redis_available, and the window and per-class
ceilings are hard-coded constants.  No quota configuration is accepted and no
validation is performed. -/
def rateLimiterInit (ping_ok : Bool) : RateLimiter :=
  { redis_available := ping_ok
    window_size := 60
    max_requests := [("translation", 10), ("auth", 5), ("default", 20)]
    memory_cache := []
    cache_cleanup_interval := 300 }

/-- The shared store: each key names a sorted set, represented by the list of
its (integer) members in insertion order. -/
structure RedisStore where
  data : List (String × List Int)
deriving DecidableEq

/-- ZREMRANGEBYSCORE key lo hi: drop every member whose score lies in the
inclusive range [lo, hi] (line 71 calls it with lo = 0, hi = now - window). -/
def zremrangebyscore (store : RedisStore) (key : String) (lo hi : Int) :
    RedisStore :=
  ⟨alistSet store.data key
    (((List.lookup key store.data).getD []).filter
      (fun sc => !(decide (lo ≤ sc) && decide (sc ≤ hi))))⟩

/-- ZCARD key: number of members (line 74). -/
def zcard (store : RedisStore) (key : String) : Nat :=
  ((List.lookup key store.data).getD []).length

/-- ZADD key (str(now) : now) (line 83): member strings are decimal renderings
of the score, so adding an already-present member leaves the set unchanged. -/
def zadd (store : RedisStore) (key : String) (member : Int) : RedisStore :=
  if member ∈ (List.lookup key store.data).getD [] then store
  else ⟨alistSet store.data key
    (((List.lookup key store.data).getD []) ++ [member])⟩

/-- Key of the in-memory cache (line 97). -/
def memKey (limit_type client_id : String) : String :=
  limit_type ++ ":" ++ client_id

/-- Key of the shared store (line 65). -/
def redisKey (limit_type client_id : String) : String :=
  "rate_limit:" ++ limit_type ++ ":" ++ client_id

/-- The denial message built at lines 80 and 116; the retry hint it carries is
the window size in seconds. -/
def rateLimitMsg (w : Int) : String :=
  "Rate limit exceeded. Try again in " ++ toString w ++ " seconds."

/-- The list comprehension at lines 105-108: keep exactly the timestamps with
now - timestamp < window_size. -/
def purgeWindow (record : List Rat) (now : Rat) (w : Int) : List Rat :=
  record.filter (fun ts => decide (now - ts < (w : Rat)))

/-- _check_memory_rate_limit (lines 95-121).  Returns the (is_allowed,
error_message) pair and the mutated limiter state.  The purged list is written
back in both branches (the assignment at line 105 happens before the limit
test); the current timestamp is appended only when allowed. -/
def check_memory_rate_limit (s : RateLimiter) (client_id limit_type : String)
    (max_requests : Nat) (now : Rat) :
    (Bool × Option String) × RateLimiter :=
  if (purgeWindow ((List.lookup (memKey limit_type client_id)
        s.memory_cache).getD []) now s.window_size).length ≥ max_requests then
    ((false, some (rateLimitMsg s.window_size)),
     { s with memory_cache := alistSet s.memory_cache
                (memKey limit_type client_id)
                (purgeWindow ((List.lookup (memKey limit_type client_id)
                  s.memory_cache).getD []) now s.window_size) })
  else
    ((true, none),
     { s with memory_cache := alistSet s.memory_cache
                (memKey limit_type client_id)
                (purgeWindow ((List.lookup (memKey limit_type client_id)
                  s.memory_cache).getD []) now s.window_size ++ [now]) })

/-- Which Redis command of a check call raises redis.RedisError (none: the
store works for the whole call). -/
inductive RedisFailure
  | atZrem
  | atZcard
  | atZadd
  | atExpire
deriving DecidableEq

/-- The except-branch at lines 89-93: mark the store unavailable and complete
the current call with the in-memory algorithm; `st` is whatever the store
holds after the commands that did execute. -/
def redisFallback (s : RateLimiter) (client_id limit_type : String)
    (max_requests : Nat) (nowMem : Rat) (st : RedisStore) :
    (Bool × Option String) × RateLimiter × RedisStore :=
  ((check_memory_rate_limit { s with redis_available := false }
      client_id limit_type max_requests nowMem).1,
   (check_memory_rate_limit { s with redis_available := false }
      client_id limit_type max_requests nowMem).2,
   st)

/-- _check_redis_rate_limit (lines 61-93).  nowI is int(time.time()) (line
68); nowMem is the fresh time.time() the in-memory fallback would read if a
command fails.  The denial test (line 78) happens after ZCARD and before
ZADD, so a denial issues neither ZADD nor EXPIRE. -/
def check_redis_rate_limit (s : RateLimiter) (store : RedisStore)
    (client_id limit_type : String) (max_requests : Nat)
    (nowI : Int) (nowMem : Rat) (failAt : Option RedisFailure) :
    (Bool × Option String) × RateLimiter × RedisStore :=
  if failAt = some RedisFailure.atZrem then
    redisFallback s client_id limit_type max_requests nowMem store
  else if failAt = some RedisFailure.atZcard then
    redisFallback s client_id limit_type max_requests nowMem
      (zremrangebyscore store (redisKey limit_type client_id) 0
        (nowI - s.window_size))
  else if zcard (zremrangebyscore store (redisKey limit_type client_id) 0
      (nowI - s.window_size)) (redisKey limit_type client_id)
      ≥ max_requests then
    ((false, some (rateLimitMsg s.window_size)), s,
     zremrangebyscore store (redisKey limit_type client_id) 0
       (nowI - s.window_size))
  else if failAt = some RedisFailure.atZadd then
    redisFallback s client_id limit_type max_requests nowMem
      (zremrangebyscore store (redisKey limit_type client_id) 0
        (nowI - s.window_size))
  else if failAt = some RedisFailure.atExpire then
    redisFallback s client_id limit_type max_requests nowMem
      (zadd (zremrangebyscore store (redisKey limit_type client_id) 0
        (nowI - s.window_size)) (redisKey limit_type client_id) nowI)
  else
    ((true, none), s,
     zadd (zremrangebyscore store (redisKey limit_type client_id) 0
       (nowI - s.window_size)) (redisKey limit_type client_id) nowI)

/-- Python exceptions that can escape the inner logic of check_rate_limit. -/
inductive PyErr
  | attributeError
  | injected
deriving DecidableEq

/-- The parts of the request object that _get_client_id reads: the
Authorization header, the X-Forwarded-For header, and request.client.host
(request.client may be None, hence the Option). -/
structure RequestModel where
  authorization : Option String
  x_forwarded_for : Option String
  client_host : Option String
deriving DecidableEq

/-- Python str.split with a one-character separator: consecutive separators
yield empty parts and the empty string yields one empty part, exactly as in
CPython.  (Defined over the character list so that it is kernel-evaluable.)
-/
def splitChar (sep : Char) : List Char → List (List Char)
  | [] => [[]]
  | c :: rest =>
    if c = sep then [] :: splitChar sep rest
    else
      match splitChar sep rest with
      | [] => [[c]]
      | p :: ps => (c :: p) :: ps

/-- Python s[-n:]: the last n characters, or all of them when the string is
shorter. -/
def lastN (n : Nat) (l : List Char) : List Char :=
  l.drop (l.length - n)

/-- Python str.strip(): drop leading and trailing whitespace. -/
def pyStrip (l : List Char) : List Char :=
  ((l.dropWhile Char.isWhitespace).reverse.dropWhile Char.isWhitespace).reverse

/-- Line 138: request.client.host; AttributeError when request.client is
None. -/
def hostOf (req : RequestModel) : Except PyErr String :=
  match req.client_host with
  | some h => Except.ok h
  | none => Except.error PyErr.attributeError

/-- Lines 134-138: first X-Forwarded-For address (stripped) when the header is
present and non-empty (Python truthiness), else the peer address. -/
def fallbackIp (req : RequestModel) : Except PyErr String :=
  match req.x_forwarded_for with
  | some f =>
    if f = "" then hostOf req
    else Except.ok (String.mk (pyStrip ((splitChar ',' f.data).headD [])))
  | none => hostOf req

/-- _get_client_id (lines 123-138).  With an Authorization header, Python
takes value.split(" ")[1]; an IndexError (fewer than two space-separated
parts) is swallowed by the bare except and control falls through to the
forwarded/peer address.  The returned id is auth_ plus the last eight
characters of the token. -/
def get_client_id (req : RequestModel) : Except PyErr String :=
  match req.authorization with
  | some a =>
    if 2 ≤ (splitChar ' ' a.data).length then
      Except.ok ("auth_" ++ String.mk (lastN 8 ((splitChar ' ' a.data).getD 1 [])))
    else fallbackIp req
  | none => fallbackIp req

/-- Line 47: self.max_requests.get(limit_type, self.max_requests["default"]).
-/
def getMaxRequests (s : RateLimiter) (limit_type : String) : Nat :=
  (List.lookup limit_type s.max_requests).getD
    ((List.lookup "default" s.max_requests).getD 0)

/-- The body of the try-block of check_rate_limit (lines 42-54): derive the
client id, look up the ceiling, and dispatch on the backend flag.  `inject`
forces an unexpected exception inside the counting logic (the fail-open
scenario of the specification); the store error `failAt` is not an
Except-error here because lines 89-93 catch it before it reaches this level.
-/
def check_rate_limit_inner (s : RateLimiter) (store : RedisStore)
    (req : RequestModel) (limit_type : String) (nowI : Int) (nowMem : Rat)
    (failAt : Option RedisFailure) (inject : Option PyErr) :
    Except PyErr ((Bool × Option String) × RateLimiter × RedisStore) :=
  match get_client_id req with
  | Except.error e => Except.error e
  | Except.ok client_id =>
    match inject with
    | some e => Except.error e
    | none =>
      if s.redis_available then
        Except.ok (check_redis_rate_limit s store client_id limit_type
          (getMaxRequests s limit_type) nowI nowMem failAt)
      else
        Except.ok
          ((check_memory_rate_limit s client_id limit_type
              (getMaxRequests s limit_type) nowMem).1,
           (check_memory_rate_limit s client_id limit_type
              (getMaxRequests s limit_type) nowMem).2,
           store)

/-- check_rate_limit (lines 37-59): the catch-all except at lines 56-59 turns
any escaped exception into (True, None), leaving the limiter state and the
store untouched (no mutation precedes the possible raise points). -/
def check_rate_limit (s : RateLimiter) (store : RedisStore)
    (req : RequestModel) (limit_type : String) (nowI : Int) (nowMem : Rat)
    (failAt : Option RedisFailure) (inject : Option PyErr) :
    (Bool × Option String) × RateLimiter × RedisStore :=
  match check_rate_limit_inner s store req limit_type nowI nowMem failAt
      inject with
  | Except.ok r => r
  | Except.error _ => ((true, none), s, store)

/-- The HTTPException raised at lines 144-147. -/
structure HTTPErrorModel where
  status_code : Nat
  detail : String
deriving DecidableEq

/-- Python `a or b` on an optional string: b when a is None or empty. -/
def pyOrDefault (m : Option String) (d : String) : String :=
  match m with
  | some x => if x = "" then d else x
  | none => d

/-- require_rate_limit (lines 140-147): raise HTTPException(429, message) iff
check_rate_limit said not allowed, else return silently. -/
def require_rate_limit (s : RateLimiter) (store : RedisStore)
    (req : RequestModel) (limit_type : String) (nowI : Int) (nowMem : Rat)
    (failAt : Option RedisFailure) (inject : Option PyErr) :
    Except HTTPErrorModel Unit × RateLimiter × RedisStore :=
  if (check_rate_limit s store req limit_type nowI nowMem failAt
      inject).1.1 then
    (Except.ok (),
     (check_rate_limit s store req limit_type nowI nowMem failAt
        inject).2.1,
     (check_rate_limit s store req limit_type nowI nowMem failAt
        inject).2.2)
  else
    (Except.error
      { status_code := 429
        detail := pyOrDefault (check_rate_limit s store req limit_type nowI
          nowMem failAt inject).1.2 "Too many requests" },
     (check_rate_limit s store req limit_type nowI nowMem failAt
        inject).2.1,
     (check_rate_limit s store req limit_type nowI nowMem failAt
        inject).2.2)

/-- Test driver: a back-to-back sequence of in-memory checks for one
(quota class, identity) pair at the given timestamps, collecting the
is_allowed decisions. -/
def runMemorySeq (s : RateLimiter) (client_id limit_type : String)
    (max_requests : Nat) : List Rat → List Bool
  | [] => []
  | t :: ts =>
    (check_memory_rate_limit s client_id limit_type max_requests t).1.1 ::
      runMemorySeq
        (check_memory_rate_limit s client_id limit_type max_requests t).2
        client_id limit_type max_requests ts

/-- Test driver: a back-to-back sequence of shared-store checks (no command
failures) for one pair, collecting the decisions. -/
def runRedisSeq (s : RateLimiter) (store : RedisStore)
    (client_id limit_type : String) (max_requests : Nat) :
    List Int → List Bool
  | [] => []
  | t :: ts =>
    (check_redis_rate_limit s store client_id limit_type max_requests t 0
        none).1.1 ::
      runRedisSeq
        (check_redis_rate_limit s store client_id limit_type max_requests t 0
          none).2.1
        (check_redis_rate_limit s store client_id limit_type max_requests t 0
          none).2.2
        client_id limit_type max_requests ts

/-- Progress of one in-flight _check_redis_rate_limit call, between the atomic
store commands: before ZREMRANGEBYSCORE; before ZCARD; allowed-pending before
ZADD; before EXPIRE; finished. -/
inductive RPhase
  | start
  | purged
  | counted
  | added
  | doneAllowed
  | doneDenied
deriving DecidableEq, BEq

/-- One atomic store command of a call in the given phase.  Each Redis command
is individually atomic, but nothing serializes the four commands of one call
against other callers; the decision is taken from the ZCARD reply (lines
74-78), so it happens atomically with the count, while ZADD runs later. -/
def redisOpStep (w : Int) (max_requests : Nat) (key : String) (now : Int) :
    RPhase × RedisStore → RPhase × RedisStore
  | (RPhase.start, st) =>
    (RPhase.purged, zremrangebyscore st key 0 (now - w))
  | (RPhase.purged, st) =>
    if zcard st key ≥ max_requests then (RPhase.doneDenied, st)
    else (RPhase.counted, st)
  | (RPhase.counted, st) => (RPhase.added, zadd st key now)
  | (RPhase.added, st) => (RPhase.doneAllowed, st)
  | (RPhase.doneAllowed, st) => (RPhase.doneAllowed, st)
  | (RPhase.doneDenied, st) => (RPhase.doneDenied, st)

/-- Run a schedule (a list of call indices) over a set of concurrent calls,
all for the same key, ceiling and timestamp: at each schedule entry the named
call executes its next atomic command. -/
def runSched (w : Int) (max_requests : Nat) (key : String) (now : Int) :
    List Nat → List RPhase × RedisStore → List RPhase × RedisStore
  | [], conf => conf
  | i :: rest, (phases, st) =>
    runSched w max_requests key now rest
      (phases.set i
        (redisOpStep w max_requests key now (phases.getD i RPhase.doneDenied,
          st)).1,
       (redisOpStep w max_requests key now (phases.getD i RPhase.doneDenied,
          st)).2)

/-! ## Helper lemmas -/

theorem alistSet_lookup_self {α : Type} (l : List (String × α)) (k : String)
    (v : α) : List.lookup k (alistSet l k v) = some v := by
  induction l with
  | nil => simp [alistSet, List.lookup]
  | cons hd tl ih =>
    obtain ⟨k2, v2⟩ := hd
    by_cases h : k2 = k
    · simp [alistSet, h, List.lookup]
    · simp only [alistSet]
      rw [if_neg (by simpa [beq_iff_eq] using h)]
      simp only [List.lookup]
      rw [show (k == k2) = false by simpa [beq_iff_eq] using Ne.symm h]
      exact ih

theorem alistSet_lookup_ne {α : Type} (l : List (String × α)) (k k2 : String)
    (v : α) (h : k ≠ k2) :
    List.lookup k2 (alistSet l k v) = List.lookup k2 l := by
  induction l with
  | nil =>
    simp only [alistSet, List.lookup]
    rw [show (k2 == k) = false by simpa [beq_iff_eq] using Ne.symm h]
  | cons hd tl ih =>
    obtain ⟨k1, v1⟩ := hd
    by_cases hk : k1 = k
    · subst hk
      simp only [alistSet, beq_self_eq_true, if_pos]
      simp only [List.lookup]
      rw [show (k2 == k1) = false by simpa [beq_iff_eq] using Ne.symm h]
    · simp only [alistSet]
      rw [if_neg (by simpa [beq_iff_eq] using hk)]
      simp only [List.lookup]
      cases hc : (k2 == k1) with
      | true => rfl
      | false => exact ih

theorem memKey_ne {lt1 cid1 lt2 cid2 : String}
    (h : (lt1 = lt2 ∧ cid1 ≠ cid2) ∨ (cid1 = cid2 ∧ lt1 ≠ lt2)) :
    memKey lt1 cid1 ≠ memKey lt2 cid2 := by
  intro he
  have hd : (lt1 ++ ":" ++ cid1).data = (lt2 ++ ":" ++ cid2).data :=
    congrArg String.data he
  rw [String.data_append, String.data_append, String.data_append,
    String.data_append] at hd
  rcases h with ⟨h1, h2⟩ | ⟨h1, h2⟩
  · subst h1
    exact h2 (String.ext (List.append_cancel_left hd))
  · subst h1
    exact h2 (String.ext (List.append_cancel_right
      (List.append_cancel_right hd)))

theorem redisKey_ne {lt1 cid1 lt2 cid2 : String}
    (h : (lt1 = lt2 ∧ cid1 ≠ cid2) ∨ (cid1 = cid2 ∧ lt1 ≠ lt2)) :
    redisKey lt1 cid1 ≠ redisKey lt2 cid2 := by
  intro he
  have hd : ("rate_limit:" ++ lt1 ++ ":" ++ cid1).data =
      ("rate_limit:" ++ lt2 ++ ":" ++ cid2).data := congrArg String.data he
  simp only [String.data_append] at hd
  rcases h with ⟨h1, h2⟩ | ⟨h1, h2⟩
  · subst h1
    exact h2 (String.ext (List.append_cancel_left hd))
  · subst h1
    have := List.append_cancel_right (List.append_cancel_right hd)
    exact h2 (String.ext (List.append_cancel_left this))

theorem check_memory_preserves (s : RateLimiter) (cid lt : String) (mx : Nat)
    (now : Rat) :
    (check_memory_rate_limit s cid lt mx now).2.redis_available =
        s.redis_available ∧
      (check_memory_rate_limit s cid lt mx now).2.window_size =
        s.window_size ∧
      (check_memory_rate_limit s cid lt mx now).2.max_requests =
        s.max_requests := by
  unfold check_memory_rate_limit
  split <;> exact ⟨rfl, rfl, rfl⟩

theorem check_memory_fresh_allowed (s : RateLimiter) (cid lt : String)
    (mx : Nat) (now : Rat) (hmx : 0 < mx)
    (h : List.lookup (memKey lt cid) s.memory_cache = none) :
    (check_memory_rate_limit s cid lt mx now).1.1 = true := by
  unfold check_memory_rate_limit
  rw [h]
  simp only [Option.getD_none, purgeWindow, List.filter_nil, List.length_nil]
  rw [if_neg (by omega)]

/-! ## C2: fail-open on unexpected internal errors -/

/-- C2: if anything inside the guarded body of check_rate_limit raises an
unexpected exception (a fault injected inside the counting logic, or the
AttributeError from identity derivation), check_rate_limit swallows it and
returns allowed = true with no message, leaving the limiter state and the
store untouched; by construction it propagates nothing to the caller. -/
theorem c2_fail_open (s : RateLimiter) (store : RedisStore)
    (req : RequestModel) (limit_type : String) (nowI : Int) (nowMem : Rat)
    (failAt : Option RedisFailure) (inject : Option PyErr) (e : PyErr)
    (h : check_rate_limit_inner s store req limit_type nowI nowMem failAt
      inject = Except.error e) :
    check_rate_limit s store req limit_type nowI nowMem failAt inject =
      ((true, none), s, store) := by
  unfold check_rate_limit
  rw [h]

/-- Witness for C2: a request whose client field is missing (request.client is
None) makes the inner logic raise, and check_rate_limit still answers
(True, None). -/
theorem c2_fail_open_witness :
    check_rate_limit (rateLimiterInit true) ⟨[]⟩ ⟨none, none, none⟩ "default"
      0 0 none none = ((true, none), rateLimiterInit true, ⟨[]⟩) :=
  c2_fail_open (rateLimiterInit true) ⟨[]⟩ ⟨none, none, none⟩ "default" 0 0
    none none PyErr.attributeError rfl

/-! ## C7: no misconfigured controller can be constructed -/

/-- C7: the constructor accepts no quota configuration at all — window_size
and every per-class ceiling are hard-coded positive constants, and the
"default" entry is always present — so a controller with a negative limit or
a non-positive window cannot come into existence, and every ceiling a check
call can ever look up is positive.  (The claim's construction-time-failure
reading holds vacuously: there is no constructible misconfigured state, hence
misconfiguration is never first detected at check time.) -/
theorem c7_construction_wellformed (ping_ok : Bool) :
    0 < (rateLimiterInit ping_ok).window_size ∧
      (∀ p ∈ (rateLimiterInit ping_ok).max_requests, 0 < p.2) ∧
      List.lookup "default" (rateLimiterInit ping_ok).max_requests =
        some 20 ∧
      ∀ limit_type : String,
        0 < getMaxRequests (rateLimiterInit ping_ok) limit_type := by
  refine ⟨by norm_num [rateLimiterInit], ?_, by rfl, ?_⟩
  · intro p hp
    simp only [rateLimiterInit, List.mem_cons, List.not_mem_nil,
      or_false] at hp
    rcases hp with rfl | rfl | rfl <;> norm_num
  · intro lt
    unfold getMaxRequests rateLimiterInit
    by_cases h1 : lt = "translation"
    · simp [List.lookup, h1]
    · by_cases h2 : lt = "auth"
      · simp [List.lookup, h2]
      · by_cases h3 : lt = "default"
        · simp [List.lookup, h3]
        · simp only [List.lookup]
          rw [show (lt == "translation") = false by
                simpa [beq_iff_eq] using h1,
              show (lt == "auth") = false by simpa [beq_iff_eq] using h2,
              show (lt == "default") = false by simpa [beq_iff_eq] using h3]
          simp [List.lookup]

/-- Witness for C7: instances exist and the theorem applies to them. -/
theorem c7_construction_wellformed_witness :
    0 < (rateLimiterInit true).window_size ∧
      (0 < (("auth", 5) : String × Nat).2) ∧
      0 < getMaxRequests (rateLimiterInit true) "unconfigured_class" :=
  ⟨(c7_construction_wellformed true).1,
   (c7_construction_wellformed true).2.1 ("auth", 5) (by simp [rateLimiterInit]),
   (c7_construction_wellformed true).2.2.2 "unconfigured_class"⟩

/-! ## C9: client identity precedence -/

/-- C9: the throttling identity is derived with the precedence the claim
states: a well-formed bearer credential (an Authorization header with at
least two space-separated parts) yields auth_ plus the last eight characters
of the token; otherwise a non-empty X-Forwarded-For header yields its first
comma-separated address, stripped; otherwise the direct peer address is
used. -/
theorem c9_identity_precedence (req : RequestModel) :
    (∀ a, req.authorization = some a → 2 ≤ (splitChar ' ' a.data).length →
      get_client_id req =
        Except.ok
          ("auth_" ++ String.mk (lastN 8 ((splitChar ' ' a.data).getD 1 [])))) ∧
    ((req.authorization = none ∨
        ∃ a, req.authorization = some a ∧ (splitChar ' ' a.data).length < 2) →
      ∀ f, req.x_forwarded_for = some f → f ≠ "" →
        get_client_id req =
          Except.ok (String.mk (pyStrip ((splitChar ',' f.data).headD [])))) ∧
    ((req.authorization = none ∨
        ∃ a, req.authorization = some a ∧ (splitChar ' ' a.data).length < 2) →
      (req.x_forwarded_for = none ∨ req.x_forwarded_for = some "") →
      ∀ h, req.client_host = some h → get_client_id req = Except.ok h) := by
  refine ⟨?_, ?_, ?_⟩
  · intro a ha hlen
    simp only [get_client_id, ha]
    rw [if_pos hlen]
  · intro hbad f hf hne
    have hfb : fallbackIp req =
        Except.ok (String.mk (pyStrip ((splitChar ',' f.data).headD []))) := by
      simp only [fallbackIp, hf]
      rw [if_neg hne]
    rcases hbad with hn | ⟨a, ha, hlt⟩
    · simp only [get_client_id, hn]
      exact hfb
    · simp only [get_client_id, ha]
      rw [if_neg (by omega)]
      exact hfb
  · intro hbad hfwd h hh
    have hho : hostOf req = Except.ok h := by
      simp only [hostOf, hh]
    have hfb : fallbackIp req = Except.ok h := by
      rcases hfwd with hw | hw
      · simp only [fallbackIp, hw]
        exact hho
      · simp only [fallbackIp, hw, if_true]
        exact hho
    rcases hbad with hn | ⟨a, ha, hlt⟩
    · simp only [get_client_id, hn]
      exact hfb
    · simp only [get_client_id, ha]
      rw [if_neg (by omega)]
      exact hfb

/-- Witness for C9: each of the three precedence levels fires on a concrete
request — bearer token beats both headers, forwarded-for beats the peer
address when the Authorization value is malformed, and the peer address is
used when the forwarded header is empty. -/
theorem c9_identity_precedence_witness :
    get_client_id ⟨some "Bearer abcdefghij", some "9.9.9.9", some "7.7.7.7"⟩ =
      Except.ok "auth_cdefghij" ∧
    get_client_id
        ⟨some "NoSpaceToken", some " 1.2.3.4 , 5.6.7.8", some "7.7.7.7"⟩ =
      Except.ok "1.2.3.4" ∧
    get_client_id ⟨none, some "", some "7.7.7.7"⟩ = Except.ok "7.7.7.7" :=
  ⟨by
    have h := (c9_identity_precedence
      ⟨some "Bearer abcdefghij", some "9.9.9.9", some "7.7.7.7"⟩).1
      "Bearer abcdefghij" rfl (by decide)
    exact h,
   by
    have h := (c9_identity_precedence
      ⟨some "NoSpaceToken", some " 1.2.3.4 , 5.6.7.8", some "7.7.7.7"⟩).2.1
      (Or.inr ⟨"NoSpaceToken", rfl, by decide⟩) " 1.2.3.4 , 5.6.7.8" rfl
      (by decide)
    exact h,
   (c9_identity_precedence ⟨none, some "", some "7.7.7.7"⟩).2.2
      (Or.inl rfl) (Or.inr rfl) "7.7.7.7" rfl⟩

/-! ## The sliding-window sequences -/

theorem runMemorySeq_eq_map (client_id limit_type : String)
    (max_requests : Nat) :
    ∀ (ts : List Rat) (s : RateLimiter) (r : List Rat),
      (List.lookup (memKey limit_type client_id) s.memory_cache).getD [] = r →
      (∀ x ∈ r, ∀ t ∈ ts, t - x < (s.window_size : Rat)) →
      (∀ a ∈ ts, ∀ b ∈ ts, b - a < (s.window_size : Rat)) →
      runMemorySeq s client_id limit_type max_requests ts =
        (List.range ts.length).map
          (fun k => decide (r.length + k < max_requests)) := by
  intro ts
  induction ts with
  | nil => intro s r _ _ _; rfl
  | cons t ts ih =>
    intro s r hr hsurv hts
    have hpurge : purgeWindow ((List.lookup (memKey limit_type client_id)
        s.memory_cache).getD []) t s.window_size = r := by
      rw [hr]
      unfold purgeWindow
      rw [List.filter_eq_self]
      intro x hx
      simpa using hsurv x hx t (List.mem_cons_self t ts)
    by_cases hc : r.length ≥ max_requests
    · have hstep : check_memory_rate_limit s client_id limit_type
          max_requests t =
          ((false, some (rateLimitMsg s.window_size)),
           { s with
              memory_cache :=
                alistSet s.memory_cache (memKey limit_type client_id) r }) := by
        unfold check_memory_rate_limit
        rw [hpurge, if_pos hc]
      have hr1 : (List.lookup (memKey limit_type client_id)
          (alistSet s.memory_cache (memKey limit_type client_id) r)).getD []
            = r := by
        rw [alistSet_lookup_self]
        rfl
      have ih2 := ih
        { s with
          memory_cache :=
            alistSet s.memory_cache (memKey limit_type client_id) r } r hr1
        (fun x hx u hu => hsurv x hx u (List.mem_cons_of_mem _ hu))
        (fun a ha b hb => hts a (List.mem_cons_of_mem _ ha) b
          (List.mem_cons_of_mem _ hb))
      simp only [runMemorySeq, hstep]
      rw [ih2, List.length_cons, List.range_succ_eq_map, List.map_cons,
        List.map_map]
      congr 1
      · have hlt : ¬ (r.length + 0 < max_requests) := by omega
        simp [hlt]
        omega
      · have hfun : (fun k => decide (r.length + k < max_requests)) =
            ((fun k => decide (r.length + k < max_requests)) ∘ Nat.succ) := by
          funext k
          simp only [Function.comp_apply]
          rw [decide_eq_decide]
          omega
        rw [← hfun]
    · have hstep : check_memory_rate_limit s client_id limit_type
          max_requests t =
          ((true, none),
           { s with
              memory_cache :=
                alistSet s.memory_cache (memKey limit_type client_id)
                  (r ++ [t]) }) := by
        unfold check_memory_rate_limit
        rw [hpurge, if_neg hc]
      have hr1 : (List.lookup (memKey limit_type client_id)
          (alistSet s.memory_cache (memKey limit_type client_id)
            (r ++ [t]))).getD [] = r ++ [t] := by
        rw [alistSet_lookup_self]
        rfl
      have hsurv1 : ∀ x ∈ r ++ [t], ∀ u ∈ ts,
          u - x < (s.window_size : Rat) := by
        intro x hx u hu
        rcases List.mem_append.mp hx with h | h
        · exact hsurv x h u (List.mem_cons_of_mem _ hu)
        · rw [List.mem_singleton.mp h]
          exact hts t (List.mem_cons_self t ts) u (List.mem_cons_of_mem _ hu)
      have ih2 := ih
        { s with
          memory_cache :=
            alistSet s.memory_cache (memKey limit_type client_id)
              (r ++ [t]) } (r ++ [t]) hr1 hsurv1
        (fun a ha b hb => hts a (List.mem_cons_of_mem _ ha) b
          (List.mem_cons_of_mem _ hb))
      simp only [runMemorySeq, hstep]
      rw [ih2, List.length_cons, List.range_succ_eq_map, List.map_cons,
        List.map_map]
      congr 1
      · have hlt : r.length + 0 < max_requests := by omega
        simp [hlt]
        omega
      · have hfun : ((fun k => decide (r.length + k < max_requests)) ∘
            Nat.succ) =
            (fun k => decide ((r ++ [t]).length + k < max_requests)) := by
          funext k
          simp only [Function.comp_apply, List.length_append,
            List.length_singleton]
          rw [decide_eq_decide]
          omega
        rw [hfun]

theorem check_redis_none_eq (s : RateLimiter) (store : RedisStore)
    (cid lt : String) (mx : Nat) (nowI : Int) (nowMem : Rat) :
    check_redis_rate_limit s store cid lt mx nowI nowMem none =
      if zcard (zremrangebyscore store (redisKey lt cid) 0
          (nowI - s.window_size)) (redisKey lt cid) ≥ mx then
        ((false, some (rateLimitMsg s.window_size)), s,
         zremrangebyscore store (redisKey lt cid) 0 (nowI - s.window_size))
      else
        ((true, none), s,
         zadd (zremrangebyscore store (redisKey lt cid) 0
           (nowI - s.window_size)) (redisKey lt cid) nowI) := by
  unfold check_redis_rate_limit
  rw [if_neg (by simp), if_neg (by simp)]
  by_cases h : zcard (zremrangebyscore store (redisKey lt cid) 0
      (nowI - s.window_size)) (redisKey lt cid) ≥ mx
  · rw [if_pos h, if_pos h]
  · rw [if_neg h, if_neg h, if_neg (by simp), if_neg (by simp)]

theorem zrem_lookup_self (store : RedisStore) (key : String) (lo hi : Int) :
    (List.lookup key (zremrangebyscore store key lo hi).data).getD [] =
      ((List.lookup key store.data).getD []).filter
        (fun sc => !(decide (lo ≤ sc) && decide (sc ≤ hi))) := by
  unfold zremrangebyscore
  rw [alistSet_lookup_self]
  rfl

theorem zadd_lookup_self_not_mem (store : RedisStore) (key : String)
    (m : Int) (h : m ∉ (List.lookup key store.data).getD []) :
    (List.lookup key (zadd store key m).data).getD [] =
      ((List.lookup key store.data).getD []) ++ [m] := by
  unfold zadd
  rw [if_neg h, alistSet_lookup_self]
  rfl

theorem runRedisSeq_eq_map (client_id limit_type : String)
    (max_requests : Nat) :
    ∀ (ts : List Int) (s : RateLimiter) (store : RedisStore) (r : List Int),
      (List.lookup (redisKey limit_type client_id) store.data).getD [] = r →
      (∀ x ∈ r, ∀ t ∈ ts, t - x < s.window_size) →
      (∀ x ∈ r, ∀ t ∈ ts, x ≠ t) →
      (∀ a ∈ ts, ∀ b ∈ ts, b - a < s.window_size) →
      ts.Nodup →
      runRedisSeq s store client_id limit_type max_requests ts =
        (List.range ts.length).map
          (fun k => decide (r.length + k < max_requests)) := by
  intro ts
  induction ts with
  | nil => intro s store r _ _ _ _ _; rfl
  | cons t ts ih =>
    intro s store r hr hsurv hne hts hnd
    have hpurge : (List.lookup (redisKey limit_type client_id)
        (zremrangebyscore store (redisKey limit_type client_id) 0
          (t - s.window_size)).data).getD [] = r := by
      rw [zrem_lookup_self, hr, List.filter_eq_self]
      intro x hx
      have h1 : t - x < s.window_size :=
        hsurv x hx t (List.mem_cons_self t ts)
      have h2 : ¬ (x ≤ t - s.window_size) := by omega
      simp [h2]
    have hcard : zcard (zremrangebyscore store
        (redisKey limit_type client_id) 0 (t - s.window_size))
        (redisKey limit_type client_id) = r.length := by
      unfold zcard
      rw [hpurge]
    by_cases hc : r.length ≥ max_requests
    · have ih2 := ih s (zremrangebyscore store
          (redisKey limit_type client_id) 0 (t - s.window_size)) r hpurge
        (fun x hx u hu => hsurv x hx u (List.mem_cons_of_mem _ hu))
        (fun x hx u hu => hne x hx u (List.mem_cons_of_mem _ hu))
        (fun a ha b hb => hts a (List.mem_cons_of_mem _ ha) b
          (List.mem_cons_of_mem _ hb))
        (List.nodup_cons.mp hnd).2
      simp only [runRedisSeq, check_redis_none_eq]
      rw [if_pos (by rw [hcard]; exact hc)]
      rw [ih2, List.length_cons, List.range_succ_eq_map, List.map_cons,
        List.map_map]
      congr 1
      · have hlt : ¬ (r.length + 0 < max_requests) := by omega
        simp [hlt]
        omega
      · have hfun : (fun k => decide (r.length + k < max_requests)) =
            ((fun k => decide (r.length + k < max_requests)) ∘ Nat.succ) := by
          funext k
          simp only [Function.comp_apply]
          rw [decide_eq_decide]
          omega
        rw [← hfun]
    · have hmem : t ∉ (List.lookup (redisKey limit_type client_id)
          (zremrangebyscore store (redisKey limit_type client_id) 0
            (t - s.window_size)).data).getD [] := by
        rw [hpurge]
        intro hin
        exact hne t hin t (List.mem_cons_self t ts) rfl
      have hadd : (List.lookup (redisKey limit_type client_id)
          (zadd (zremrangebyscore store (redisKey limit_type client_id) 0
            (t - s.window_size)) (redisKey limit_type client_id) t).data).getD
            [] = r ++ [t] := by
        rw [zadd_lookup_self_not_mem _ _ _ hmem, hpurge]
      have hsurv1 : ∀ x ∈ r ++ [t], ∀ u ∈ ts, u - x < s.window_size := by
        intro x hx u hu
        rcases List.mem_append.mp hx with h | h
        · exact hsurv x h u (List.mem_cons_of_mem _ hu)
        · rw [List.mem_singleton.mp h]
          exact hts t (List.mem_cons_self t ts) u (List.mem_cons_of_mem _ hu)
      have hne1 : ∀ x ∈ r ++ [t], ∀ u ∈ ts, x ≠ u := by
        intro x hx u hu
        rcases List.mem_append.mp hx with h | h
        · exact hne x h u (List.mem_cons_of_mem _ hu)
        · rw [List.mem_singleton.mp h]
          intro hq
          exact (List.nodup_cons.mp hnd).1 (hq ▸ hu)
      have ih2 := ih s (zadd (zremrangebyscore store
          (redisKey limit_type client_id) 0 (t - s.window_size))
          (redisKey limit_type client_id) t) (r ++ [t]) hadd hsurv1 hne1
        (fun a ha b hb => hts a (List.mem_cons_of_mem _ ha) b
          (List.mem_cons_of_mem _ hb))
        (List.nodup_cons.mp hnd).2
      simp only [runRedisSeq, check_redis_none_eq]
      rw [if_neg (by rw [hcard]; omega)]
      rw [ih2, List.length_cons, List.range_succ_eq_map, List.map_cons,
        List.map_map]
      congr 1
      · have hlt : r.length + 0 < max_requests := by omega
        simp [hlt]
        omega
      · have hfun : ((fun k => decide (r.length + k < max_requests)) ∘
            Nat.succ) =
            (fun k => decide ((r ++ [t]).length + k < max_requests)) := by
          funext k
          simp only [Function.comp_apply, List.length_append,
            List.length_singleton]
          rw [decide_eq_decide]
          omega
        rw [hfun]

/-! ## C1: exact sliding-window admission -/

/-- C1 (amended): starting from a fresh controller, for a sequence of check
calls for one (quota_class, identity) pair whose timestamps all lie within
one window_size of each other, the Nth call (1-indexed, index k = N-1) is
allowed iff N <= max_requests — unconditionally on the in-process backend,
and on the shared-store backend provided no two calls share the same integer
second (hypothesis ts.Nodup): the store keys entries by str(now), so calls in
the same second collapse to one stored member. -/
theorem c1_sliding_window_log :
    (∀ (client_id limit_type : String) (max_requests : Nat) (ping_ok : Bool)
        (ts : List Rat),
        (∀ a ∈ ts, ∀ b ∈ ts, b - a < (60 : Rat)) →
        runMemorySeq (rateLimiterInit ping_ok) client_id limit_type
            max_requests ts =
          (List.range ts.length).map (fun k => decide (k < max_requests))) ∧
    (∀ (client_id limit_type : String) (max_requests : Nat) (ts : List Int),
        (∀ a ∈ ts, ∀ b ∈ ts, b - a < 60) → ts.Nodup →
        runRedisSeq (rateLimiterInit true) ⟨[]⟩ client_id limit_type
            max_requests ts =
          (List.range ts.length).map (fun k => decide (k < max_requests))) := by
  constructor
  · intro cid lt mx b ts hts
    have h := runMemorySeq_eq_map cid lt mx ts (rateLimiterInit b) [] rfl
      (by intro x hx; simp at hx)
      (by
        intro a ha b2 hb2
        rw [show (((rateLimiterInit b).window_size : Int) : Rat) = (60 : Rat)
          from by norm_num [rateLimiterInit]]
        exact hts a ha b2 hb2)
    rw [h]
    have hfun : (fun k => decide ((List.length ([] : List Rat)) + k < mx)) =
        (fun k => decide (k < mx)) := by
      funext k
      simp only [List.length_nil]
      rw [decide_eq_decide]
      omega
    rw [hfun]
  · intro cid lt mx ts hts hnd
    have h := runRedisSeq_eq_map cid lt mx ts (rateLimiterInit true) ⟨[]⟩ []
      rfl
      (by intro x hx; simp at hx)
      (by intro x hx; simp at hx)
      (by
        intro a ha b2 hb2
        exact hts a ha b2 hb2)
      hnd
    rw [h]
    have hfun : (fun k => decide ((List.length ([] : List Int)) + k < mx)) =
        (fun k => decide (k < mx)) := by
      funext k
      simp only [List.length_nil]
      rw [decide_eq_decide]
      omega
    rw [hfun]

/-- Witness for C1: three calls with ceiling 2 on both backends yield
allow, allow, deny. -/
theorem c1_sliding_window_log_witness :
    runMemorySeq (rateLimiterInit false) "clientA" "translation" 2
        [0, 1, 2] = (List.range 3).map (fun k => decide (k < 2)) ∧
    (List.range 3).map (fun k => decide (k < 2)) = [true, true, false] ∧
    runRedisSeq (rateLimiterInit true) ⟨[]⟩ "clientA" "translation" 2
        [0, 1, 2] = [true, true, false] := by
  refine ⟨?_, by decide, ?_⟩
  · exact c1_sliding_window_log.1 "clientA" "translation" 2 false [0, 1, 2]
      (by intro a ha b hb; fin_cases ha <;> fin_cases hb <;> norm_num)
  · have h := c1_sliding_window_log.2 "clientA" "translation" 2 [0, 1, 2]
      (by decide) (by decide)
    rw [h]
    rfl

/-- C1 counterexample: on the shared-store backend, six calls for the same
pair all at integer second 0 with ceiling 5 ("auth") are all allowed — the
sixth call (N = 6 > 5) should be denied by the claim, but every call after
the first sees a set of cardinality one because zadd stores the member
str(0) repeatedly. -/
theorem c1_counterexample :
    (∀ a ∈ ([0, 0, 0, 0, 0, 0] : List Int),
       ∀ b ∈ ([0, 0, 0, 0, 0, 0] : List Int), b - a < 60) ∧
    (runRedisSeq (rateLimiterInit true) ⟨[]⟩ "clientA" "auth" 5
        [0, 0, 0, 0, 0, 0]).getD 5 false = true ∧
    ¬ (6 ≤ 5) :=
  ⟨by decide, by rfl, by decide⟩

/-! ## C8: atomicity of read-count-append under concurrency -/

/-- Faithfulness of the command-level decomposition: running the four store
commands of one call back-to-back, with no interleaved caller, reproduces
_check_redis_rate_limit exactly — same decision, same final store. -/
theorem redisOpStep_single (s : RateLimiter) (st : RedisStore)
    (cid lt : String) (mx : Nat) (now : Int) :
    redisOpStep s.window_size mx (redisKey lt cid) now
      (redisOpStep s.window_size mx (redisKey lt cid) now
        (redisOpStep s.window_size mx (redisKey lt cid) now
          (redisOpStep s.window_size mx (redisKey lt cid) now
            (RPhase.start, st)))) =
      ((if (check_redis_rate_limit s st cid lt mx now 0 none).1.1 then
          RPhase.doneAllowed else RPhase.doneDenied),
       (check_redis_rate_limit s st cid lt mx now 0 none).2.2) := by
  rw [check_redis_none_eq]
  by_cases h : zcard (zremrangebyscore st (redisKey lt cid) 0
      (now - s.window_size)) (redisKey lt cid) ≥ mx
  · rw [if_pos h]
    simp [redisOpStep, h]
  · rw [if_neg h]
    simp [redisOpStep, h]

set_option maxRecDepth 40000 in
/-- C8 counterexample: the very interleaving of the claim's example — 100
concurrent calls for one pair with ceiling 10 ("translation"), scheduled so
that every call purges, then every call reads the count, then every call
appends — admits all 100 calls, not exactly 10: the four store commands are
individually atomic but the read-count-then-append sequence is not. -/
theorem c8_counterexample :
    ((runSched 60 10 (redisKey "translation" "clientA") 0
        (List.range 100 ++ List.range 100 ++ List.range 100 ++
          List.range 100)
        (List.replicate 100 RPhase.start, ⟨[]⟩)).1.count
      RPhase.doneAllowed = 100) ∧ (100 : Nat) ≠ 10 :=
  ⟨by rfl, by decide⟩

theorem count_true_range_decide (m : Nat) :
    ∀ n : Nat,
      (((List.range n).map (fun k => decide (k < m))).count true) = min n m := by
  intro n
  induction n with
  | zero => simp
  | succ n ih =>
    rw [List.range_succ, List.map_append, List.count_append, ih]
    by_cases h : n < m
    · simp only [List.map_cons, List.map_nil, List.count_singleton, h]
      simp
      omega
    · simp only [List.map_cons, List.map_nil, List.count_singleton, h]
      simp
      omega

/-- C8 (amended): the in-process backend runs each check without suspension
points, so checks for one pair execute atomically one after another, and of
n such calls at one instant exactly min(n, max_requests) are allowed; the
shared-store backend offers only per-command atomicity, not atomicity of the
whole read-count-append sequence (see the counterexample). -/
theorem c8_inprocess_exact (client_id limit_type : String)
    (max_requests n : Nat) (t : Rat) :
    (runMemorySeq (rateLimiterInit false) client_id limit_type max_requests
        (List.replicate n t)).count true = min n max_requests := by
  have h := runMemorySeq_eq_map client_id limit_type max_requests
    (List.replicate n t) (rateLimiterInit false) [] rfl
    (by intro x hx; simp at hx)
    (by
      intro a ha b hb
      rw [List.eq_of_mem_replicate ha, List.eq_of_mem_replicate hb, sub_self]
      rw [show (((rateLimiterInit false).window_size : Int) : Rat) =
        (60 : Rat) from by norm_num [rateLimiterInit]]
      norm_num)
  rw [h, List.length_replicate]
  have hfun : (fun k => decide ((List.length ([] : List Rat)) + k
      < max_requests)) = (fun k => decide (k < max_requests)) := by
    funext k
    simp only [List.length_nil]
    rw [decide_eq_decide]
    omega
  rw [hfun, count_true_range_decide]

/-! ## C4: purge-before-count and recovery after the window -/

/-- C4: (i) the purge keeps only timestamps strictly inside the trailing
window, so the count never sees an expired entry; (ii) the in-memory check
denies exactly when the within-window count has reached the ceiling; (iii)
after any history whose timestamps are all at most tmax, a check at
tmax + window_size + eps with eps > 0 is allowed again on the in-memory
backend (given a positive ceiling); and (iv) likewise on the shared-store
backend for nonnegative integer timestamps. -/
theorem c4_purge_then_allow :
    (∀ (record : List Rat) (now : Rat) (w : Int),
       ∀ x ∈ purgeWindow record now w, now - x < (w : Rat)) ∧
    (∀ (s : RateLimiter) (client_id limit_type : String) (mx : Nat)
        (now : Rat),
       (check_memory_rate_limit s client_id limit_type mx now).1.1 = false ↔
         mx ≤ (purgeWindow ((List.lookup (memKey limit_type client_id)
           s.memory_cache).getD []) now s.window_size).length) ∧
    (∀ (s : RateLimiter) (client_id limit_type : String) (mx : Nat)
        (tmax ε : Rat),
       0 < ε → 0 < mx →
       (∀ x ∈ (List.lookup (memKey limit_type client_id)
           s.memory_cache).getD [], x ≤ tmax) →
       (check_memory_rate_limit s client_id limit_type mx
         (tmax + (s.window_size : Rat) + ε)).1.1 = true) ∧
    (∀ (s : RateLimiter) (store : RedisStore) (client_id limit_type : String)
        (mx : Nat) (tmax ε : Int) (nowMem : Rat),
       0 < ε → 0 < mx →
       (∀ x ∈ (List.lookup (redisKey limit_type client_id)
           store.data).getD [], 0 ≤ x ∧ x ≤ tmax) →
       (check_redis_rate_limit s store client_id limit_type mx
         (tmax + s.window_size + ε) nowMem none).1.1 = true) := by
  refine ⟨?_, ?_, ?_, ?_⟩
  · intro record now w x hx
    have h := List.mem_filter.mp hx
    simpa using h.2
  · intro s cid lt mx now
    unfold check_memory_rate_limit
    split_ifs with h <;> simp [h]
  · intro s cid lt mx tmax ε hε hmx hrec
    have hp : purgeWindow ((List.lookup (memKey lt cid)
        s.memory_cache).getD []) (tmax + (s.window_size : Rat) + ε)
        s.window_size = [] := by
      unfold purgeWindow
      rw [List.filter_eq_nil_iff]
      intro x hx
      simp only [decide_eq_true_eq]
      have hx2 := hrec x hx
      intro hlt
      linarith
    unfold check_memory_rate_limit
    rw [hp, if_neg (by simp only [List.length_nil]; omega)]
  · intro s store cid lt mx tmax ε nowMem hε hmx hrec
    have hz : (List.lookup (redisKey lt cid)
        (zremrangebyscore store (redisKey lt cid) 0
          (tmax + s.window_size + ε - s.window_size)).data).getD [] = [] := by
      rw [zrem_lookup_self, List.filter_eq_nil_iff]
      intro x hx
      have h := hrec x hx
      have h0 : decide ((0 : Int) ≤ x) = true := by
        simpa using h.1
      have h1 : decide (x ≤ tmax + s.window_size + ε - s.window_size)
          = true := by
        simp only [decide_eq_true_eq]
        omega
      simp [h0, h1]
    rw [check_redis_none_eq,
      if_neg (by unfold zcard; rw [hz]; simp only [List.length_nil]; omega)]

/-- Witness for C4: a record [0, 1, 2] with window 60 — entry 0 lies inside
the window at now = 1; with ceiling 10 a check at 2 + 60 + 1 = 63 is allowed
again on both backends. -/
theorem c4_purge_then_allow_witness :
    (1 : Rat) - 0 < ((60 : Int) : Rat) ∧
    (check_memory_rate_limit
        { redis_available := false
          window_size := 60
          max_requests := [("translation", 10), ("auth", 5), ("default", 20)]
          memory_cache := [("translation:cA", [0, 1, 2])]
          cache_cleanup_interval := 300 } "cA" "translation" 10
        (2 + ((60 : Int) : Rat) + 1)).1.1 = true ∧
    (check_redis_rate_limit (rateLimiterInit true)
        ⟨[("rate_limit:translation:cA", [0, 1, 2])]⟩ "cA" "translation" 10
        63 0 none).1.1 = true := by
  refine ⟨?_, ?_, ?_⟩
  · exact c4_purge_then_allow.1 [0, 1, 2] 1 60 0
      (List.mem_filter.mpr
        ⟨by simp, by simp only [decide_eq_true_eq]; norm_num⟩)
  · exact c4_purge_then_allow.2.2.1
      { redis_available := false
        window_size := 60
        max_requests := [("translation", 10), ("auth", 5), ("default", 20)]
        memory_cache := [("translation:cA", [0, 1, 2])]
        cache_cleanup_interval := 300 } "cA" "translation" 10 2 1
      (by norm_num) (by norm_num)
      (by
        intro x hx
        have hx2 : x ∈ ([0, 1, 2] : List Rat) := hx
        fin_cases hx2 <;> norm_num)
  · exact c4_purge_then_allow.2.2.2 (rateLimiterInit true)
      ⟨[("rate_limit:translation:cA", [0, 1, 2])]⟩ "cA" "translation" 10 2 1
      0 (by norm_num) (by norm_num)
      (by
        intro x hx
        have hx2 : x ∈ ([0, 1, 2] : List Int) := hx
        fin_cases hx2 <;> omega)

/-! ## C3: failover completes the call in-process, single transition -/

/-- C3: (i) whenever a store command of a call actually fails (the first two
commands can always fail; the last two run only when the count was below the
ceiling), the call returns exactly the in-process backend's decision computed
on the limiter with redis_available set to false, and the resulting state has
redis_available = false; (ii) once redis_available is false, a check call
leaves the shared store completely untouched and the flag stays false — so
the transition happens at most once per process and later calls never try
the store again. -/
theorem c3_failover_single_transition :
    (∀ (s : RateLimiter) (store : RedisStore) (cid lt : String) (mx : Nat)
        (nowI : Int) (nowMem : Rat) (f : RedisFailure),
       (f = RedisFailure.atZrem ∨ f = RedisFailure.atZcard ∨
         zcard (zremrangebyscore store (redisKey lt cid) 0
           (nowI - s.window_size)) (redisKey lt cid) < mx) →
       (check_redis_rate_limit s store cid lt mx nowI nowMem (some f)).1 =
           (check_memory_rate_limit { s with redis_available := false } cid
             lt mx nowMem).1 ∧
         (check_redis_rate_limit s store cid lt mx nowI nowMem (some f)).2.1 =
           (check_memory_rate_limit { s with redis_available := false } cid
             lt mx nowMem).2 ∧
         (check_redis_rate_limit s store cid lt mx nowI nowMem
           (some f)).2.1.redis_available = false) ∧
    (∀ (s : RateLimiter) (store : RedisStore) (req : RequestModel)
        (lt : String) (nowI : Int) (nowMem : Rat)
        (failAt : Option RedisFailure) (inject : Option PyErr),
       s.redis_available = false →
       (check_rate_limit s store req lt nowI nowMem failAt inject).2.2 =
           store ∧
         (check_rate_limit s store req lt nowI nowMem failAt
           inject).2.1.redis_available = false) := by
  constructor
  · intro s store cid lt mx nowI nowMem f h
    cases f with
    | atZrem =>
      unfold check_redis_rate_limit
      rw [if_pos rfl]
      exact ⟨rfl, rfl, (check_memory_preserves _ _ _ _ _).1⟩
    | atZcard =>
      unfold check_redis_rate_limit
      rw [if_neg (by simp), if_pos rfl]
      exact ⟨rfl, rfl, (check_memory_preserves _ _ _ _ _).1⟩
    | atZadd =>
      rcases h with h | h | hlt
      · exact absurd h (by simp)
      · exact absurd h (by simp)
      · unfold check_redis_rate_limit
        rw [if_neg (by simp), if_neg (by simp), if_neg (by omega),
          if_pos rfl]
        exact ⟨rfl, rfl, (check_memory_preserves _ _ _ _ _).1⟩
    | atExpire =>
      rcases h with h | h | hlt
      · exact absurd h (by simp)
      · exact absurd h (by simp)
      · unfold check_redis_rate_limit
        rw [if_neg (by simp), if_neg (by simp), if_neg (by omega),
          if_neg (by simp), if_pos rfl]
        exact ⟨rfl, rfl, (check_memory_preserves _ _ _ _ _).1⟩
  · intro s store req lt nowI nowMem failAt inject hflag
    unfold check_rate_limit check_rate_limit_inner
    cases hgc : get_client_id req with
    | error e =>
      simp only [hgc]
      exact ⟨by trivial, hflag⟩
    | ok cid =>
      simp only [hgc]
      cases inject with
      | some e => exact ⟨by trivial, hflag⟩
      | none =>
        simp only [hgc, hflag, Bool.false_eq_true, if_false]
        exact ⟨by trivial, (check_memory_preserves _ _ _ _ _).1.trans hflag⟩

/-- Witness for C3: a failing first command flips the flag, and a flag-false
controller leaves the store untouched. -/
theorem c3_failover_single_transition_witness :
    (check_redis_rate_limit (rateLimiterInit true) ⟨[]⟩ "cA" "translation"
        10 0 0 (some RedisFailure.atZrem)).2.1.redis_available = false ∧
    (check_rate_limit (rateLimiterInit false) ⟨[("k", [5])]⟩
        ⟨none, none, some "cA"⟩ "translation" 1 1 none none).2.2 =
      ⟨[("k", [5])]⟩ :=
  ⟨(c3_failover_single_transition.1 (rateLimiterInit true) ⟨[]⟩ "cA"
      "translation" 10 0 0 RedisFailure.atZrem (Or.inl rfl)).2.2,
   (c3_failover_single_transition.2 (rateLimiterInit false) ⟨[("k", [5])]⟩
      ⟨none, none, some "cA"⟩ "translation" 1 1 none none rfl).1⟩

/-! ## C10: failover starts from an empty in-process record -/

/-- C10: shared-store counts are never carried over to the in-process
backend: if the in-process record for a pair is absent and a check call
actually falls back (its resulting state has redis_available = false), the
call is allowed — whatever the shared store holds for that pair, including a
set already at the ceiling. -/
theorem c10_fresh_after_failover (s : RateLimiter) (store : RedisStore)
    (cid lt : String) (mx : Nat) (nowI : Int) (nowMem : Rat)
    (f : RedisFailure)
    (hflag : s.redis_available = true)
    (hfresh : List.lookup (memKey lt cid) s.memory_cache = none)
    (hmx : 0 < mx)
    (htrans : (check_redis_rate_limit s store cid lt mx nowI nowMem
      (some f)).2.1.redis_available = false) :
    (check_redis_rate_limit s store cid lt mx nowI nowMem (some f)).1.1 =
      true := by
  cases f with
  | atZrem =>
    unfold check_redis_rate_limit
    rw [if_pos rfl]
    exact check_memory_fresh_allowed _ _ _ _ _ hmx hfresh
  | atZcard =>
    unfold check_redis_rate_limit
    rw [if_neg (by simp), if_pos rfl]
    exact check_memory_fresh_allowed _ _ _ _ _ hmx hfresh
  | atZadd =>
    unfold check_redis_rate_limit at htrans ⊢
    rw [if_neg (by simp), if_neg (by simp)] at htrans ⊢
    by_cases hz : zcard (zremrangebyscore store (redisKey lt cid) 0
        (nowI - s.window_size)) (redisKey lt cid) ≥ mx
    · rw [if_pos hz] at htrans
      have h2 : s.redis_available = false := htrans
      rw [hflag] at h2
      exact absurd h2 (by decide)
    · rw [if_neg hz, if_pos rfl]
      exact check_memory_fresh_allowed _ _ _ _ _ hmx hfresh
  | atExpire =>
    unfold check_redis_rate_limit at htrans ⊢
    rw [if_neg (by simp), if_neg (by simp)] at htrans ⊢
    by_cases hz : zcard (zremrangebyscore store (redisKey lt cid) 0
        (nowI - s.window_size)) (redisKey lt cid) ≥ mx
    · rw [if_pos hz] at htrans
      have h2 : s.redis_available = false := htrans
      rw [hflag] at h2
      exact absurd h2 (by decide)
    · rw [if_neg hz, if_neg (by simp), if_pos rfl]
      exact check_memory_fresh_allowed _ _ _ _ _ hmx hfresh

/-- Witness for C10: the shared store already holds 10 entries for the pair
(the "translation" ceiling), the first command fails, and the call is still
allowed because the in-process record starts empty. -/
theorem c10_fresh_after_failover_witness :
    zcard ⟨[("rate_limit:translation:cA", [0, 1, 2, 3, 4, 5, 6, 7, 8, 9])]⟩
        "rate_limit:translation:cA" = 10 ∧
    (check_redis_rate_limit (rateLimiterInit true)
        ⟨[("rate_limit:translation:cA", [0, 1, 2, 3, 4, 5, 6, 7, 8, 9])]⟩
        "cA" "translation" 10 5 5 (some RedisFailure.atZrem)).1.1 = true :=
  ⟨by rfl,
   c10_fresh_after_failover (rateLimiterInit true)
     ⟨[("rate_limit:translation:cA", [0, 1, 2, 3, 4, 5, 6, 7, 8, 9])]⟩ "cA"
     "translation" 10 5 5 RedisFailure.atZrem rfl rfl (by omega) (by rfl)⟩

/-! ## C5: denial message and the enforce wrapper -/

theorem check_memory_denied_msg (s : RateLimiter) (cid lt : String)
    (mx : Nat) (now : Rat)
    (h : (check_memory_rate_limit s cid lt mx now).1.1 = false) :
    (check_memory_rate_limit s cid lt mx now).1.2 =
      some (rateLimitMsg s.window_size) := by
  unfold check_memory_rate_limit at h ⊢
  split_ifs at h ⊢ with hc
  all_goals first
  | rfl
  | simp at h

theorem check_redis_denied_msg (s : RateLimiter) (store : RedisStore)
    (cid lt : String) (mx : Nat) (nowI : Int) (nowMem : Rat)
    (failAt : Option RedisFailure)
    (h : (check_redis_rate_limit s store cid lt mx nowI nowMem
      failAt).1.1 = false) :
    (check_redis_rate_limit s store cid lt mx nowI nowMem failAt).1.2 =
      some (rateLimitMsg s.window_size) := by
  unfold check_redis_rate_limit at h ⊢
  split_ifs at h ⊢ with h1 h2 h3 h4 h5
  all_goals first
  | rfl
  | (exact check_memory_denied_msg _ _ _ _ _ h)
  | simp at h

theorem check_rate_limit_denied_msg (s : RateLimiter) (store : RedisStore)
    (req : RequestModel) (limit_type : String) (nowI : Int) (nowMem : Rat)
    (failAt : Option RedisFailure) (inject : Option PyErr)
    (h : (check_rate_limit s store req limit_type nowI nowMem failAt
      inject).1.1 = false) :
    (check_rate_limit s store req limit_type nowI nowMem failAt
      inject).1.2 = some (rateLimitMsg s.window_size) := by
  unfold check_rate_limit check_rate_limit_inner at h ⊢
  cases hgc : get_client_id req with
  | error e =>
    simp only [hgc] at h ⊢
    simp at h
  | ok cid =>
    simp only [hgc] at h ⊢
    cases inject with
    | some e => simp at h
    | none =>
      cases hra : s.redis_available with
      | true =>
        rw [hra] at h
        exact check_redis_denied_msg _ _ _ _ _ _ _ _ h
      | false =>
        rw [hra] at h
        exact check_memory_denied_msg _ _ _ _ _ h

/-- C5: the enforce wrapper raises the 429 error exactly when check says not
allowed, carrying check's message (or "Too many requests" for a falsy one),
and returns silently when allowed; every denial's message is the rate-limit
message whose retry hint is window_size seconds; and an allowed in-memory
check records the attempt by appending the current timestamp to the purged
record. -/
theorem c5_enforce_429 (s : RateLimiter) (store : RedisStore)
    (req : RequestModel) (limit_type : String) (nowI : Int) (nowMem : Rat)
    (failAt : Option RedisFailure) (inject : Option PyErr) :
    ((check_rate_limit s store req limit_type nowI nowMem failAt
        inject).1.1 = true →
      require_rate_limit s store req limit_type nowI nowMem failAt inject =
        (Except.ok (),
         (check_rate_limit s store req limit_type nowI nowMem failAt
           inject).2.1,
         (check_rate_limit s store req limit_type nowI nowMem failAt
           inject).2.2)) ∧
    ((check_rate_limit s store req limit_type nowI nowMem failAt
        inject).1.1 = false →
      require_rate_limit s store req limit_type nowI nowMem failAt inject =
        (Except.error
          { status_code := 429
            detail := pyOrDefault (check_rate_limit s store req limit_type
              nowI nowMem failAt inject).1.2 "Too many requests" },
         (check_rate_limit s store req limit_type nowI nowMem failAt
           inject).2.1,
         (check_rate_limit s store req limit_type nowI nowMem failAt
           inject).2.2) ∧
      (check_rate_limit s store req limit_type nowI nowMem failAt
        inject).1.2 = some (rateLimitMsg s.window_size)) ∧
    rateLimitMsg s.window_size =
      "Rate limit exceeded. Try again in " ++ toString s.window_size ++
        " seconds." ∧
    ∀ (s2 : RateLimiter) (cid lt2 : String) (mx : Nat) (now2 : Rat),
      (check_memory_rate_limit s2 cid lt2 mx now2).1.1 = true →
      List.lookup (memKey lt2 cid)
          (check_memory_rate_limit s2 cid lt2 mx now2).2.memory_cache =
        some (purgeWindow ((List.lookup (memKey lt2 cid)
          s2.memory_cache).getD []) now2 s2.window_size ++ [now2]) := by
  refine ⟨?_, ?_, rfl, ?_⟩
  · intro h
    unfold require_rate_limit
    rw [if_pos h]
  · intro h
    refine ⟨?_, check_rate_limit_denied_msg _ _ _ _ _ _ _ _ h⟩
    unfold require_rate_limit
    rw [if_neg (by rw [h]; simp)]
  · intro s2 cid lt2 mx now2 h
    unfold check_memory_rate_limit at h ⊢
    split_ifs at h ⊢ with hc
    all_goals exact alistSet_lookup_self _ _ _

/-- Witness for C5: a client at the "auth" ceiling in the shared store is
denied with the 60-second hint and enforce raises 429 with that message; a
fresh allowed in-memory check records its timestamp. -/
theorem c5_enforce_429_witness :
    (check_rate_limit (rateLimiterInit true)
        ⟨[("rate_limit:auth:cX", [0, 1, 2, 3, 4])]⟩ ⟨none, none, some "cX"⟩
        "auth" 4 1 none none).1.2 = some (rateLimitMsg 60) ∧
    (require_rate_limit (rateLimiterInit true)
        ⟨[("rate_limit:auth:cX", [0, 1, 2, 3, 4])]⟩ ⟨none, none, some "cX"⟩
        "auth" 4 1 none none).1 =
      Except.error
        { status_code := 429
          detail := "Rate limit exceeded. Try again in 60 seconds." } ∧
    List.lookup (memKey "translation" "cA")
        (check_memory_rate_limit (rateLimiterInit false) "cA" "translation"
          10 0).2.memory_cache = some [0] := by
  have hden : (check_rate_limit (rateLimiterInit true)
      ⟨[("rate_limit:auth:cX", [0, 1, 2, 3, 4])]⟩ ⟨none, none, some "cX"⟩
      "auth" 4 1 none none).1.1 = false := by rfl
  have h := (c5_enforce_429 (rateLimiterInit true)
      ⟨[("rate_limit:auth:cX", [0, 1, 2, 3, 4])]⟩ ⟨none, none, some "cX"⟩
      "auth" 4 1 none none).2.1 hden
  refine ⟨h.2, ?_, ?_⟩
  · rw [h.1]
    rfl
  · exact (c5_enforce_429 (rateLimiterInit true)
      ⟨[("rate_limit:auth:cX", [0, 1, 2, 3, 4])]⟩ ⟨none, none, some "cX"⟩
      "auth" 4 1 none none).2.2.2 (rateLimiterInit false) "cA" "translation"
      10 0 (by rfl)

/-! ## C6: isolation between (quota class, identity) pairs -/

theorem check_memory_lookup_other (s : RateLimiter) (cid lt : String)
    (mx : Nat) (now : Rat) (k2 : String) (h : memKey lt cid ≠ k2) :
    List.lookup k2 (check_memory_rate_limit s cid lt mx now).2.memory_cache =
      List.lookup k2 s.memory_cache := by
  unfold check_memory_rate_limit
  split_ifs with hc
  · exact alistSet_lookup_ne _ _ _ _ h
  · exact alistSet_lookup_ne _ _ _ _ h

theorem zrem_lookup_other (store : RedisStore) (k k2 : String) (lo hi : Int)
    (h : k ≠ k2) :
    List.lookup k2 (zremrangebyscore store k lo hi).data =
      List.lookup k2 store.data := by
  unfold zremrangebyscore
  exact alistSet_lookup_ne _ _ _ _ h

theorem zadd_lookup_other (store : RedisStore) (k k2 : String) (m : Int)
    (h : k ≠ k2) :
    List.lookup k2 (zadd store k m).data = List.lookup k2 store.data := by
  unfold zadd
  split
  · rfl
  · exact alistSet_lookup_ne _ _ _ _ h

/-- C6 (amended): a check for one (quota_class, identity) pair never changes
the record of a pair that differs in exactly one component — same class with
a different identity, or same identity with a different class — on either
backend (including the in-memory record a shared-store call may touch on
fallback).  When both components differ the composite colon-joined keys can
coincide (see the counterexample) and the pairs then share one record. -/
theorem c6_key_isolation (s : RateLimiter) (store : RedisStore)
    (cid1 lt1 cid2 lt2 : String) (mx : Nat) (now : Rat) (nowI : Int)
    (failAt : Option RedisFailure)
    (h : (lt1 = lt2 ∧ cid1 ≠ cid2) ∨ (cid1 = cid2 ∧ lt1 ≠ lt2)) :
    List.lookup (memKey lt2 cid2)
        (check_memory_rate_limit s cid1 lt1 mx now).2.memory_cache =
      List.lookup (memKey lt2 cid2) s.memory_cache ∧
    List.lookup (redisKey lt2 cid2)
        (check_redis_rate_limit s store cid1 lt1 mx nowI now
          failAt).2.2.data =
      List.lookup (redisKey lt2 cid2) store.data ∧
    List.lookup (memKey lt2 cid2)
        (check_redis_rate_limit s store cid1 lt1 mx nowI now
          failAt).2.1.memory_cache =
      List.lookup (memKey lt2 cid2) s.memory_cache := by
  have hm : memKey lt1 cid1 ≠ memKey lt2 cid2 := memKey_ne h
  have hrk : redisKey lt1 cid1 ≠ redisKey lt2 cid2 := redisKey_ne h
  refine ⟨check_memory_lookup_other _ _ _ _ _ _ hm, ?_, ?_⟩
  · unfold check_redis_rate_limit
    split_ifs with h1 h2 h3 h4 h5
    · rfl
    · exact zrem_lookup_other _ _ _ _ _ hrk
    · exact zrem_lookup_other _ _ _ _ _ hrk
    · exact zrem_lookup_other _ _ _ _ _ hrk
    · exact (zadd_lookup_other _ _ _ _ hrk).trans
        (zrem_lookup_other _ _ _ _ _ hrk)
    · exact (zadd_lookup_other _ _ _ _ hrk).trans
        (zrem_lookup_other _ _ _ _ _ hrk)
  · unfold check_redis_rate_limit
    split_ifs with h1 h2 h3 h4 h5
    · exact check_memory_lookup_other _ _ _ _ _ _ hm
    · exact check_memory_lookup_other _ _ _ _ _ _ hm
    · rfl
    · exact check_memory_lookup_other _ _ _ _ _ _ hm
    · exact check_memory_lookup_other _ _ _ _ _ _ hm
    · rfl

/-- C6 counterexample: the pairs ("a", "b:c") and ("a:b", "c") are different
(quota_class, identity) pairs, yet a check for the first changes the
recorded count of the second from 0 to 1 — both map to the composite key
"a:b:c". -/
theorem c6_counterexample :
    ((("a" : String), ("b:c" : String)) ≠ (("a:b" : String), ("c" : String)))
      ∧
    ((List.lookup (memKey "a:b" "c")
        (rateLimiterInit false).memory_cache).getD []).length = 0 ∧
    ((List.lookup (memKey "a:b" "c")
        (check_memory_rate_limit (rateLimiterInit false) "b:c" "a" 20
          0).2.memory_cache).getD []).length = 1 :=
  ⟨by decide, by rfl, by rfl⟩

/-- Witness for C6: a check for ("translation", "cA") leaves the record of
("translation", "cB") unchanged. -/
theorem c6_key_isolation_witness :
    List.lookup (memKey "translation" "cB")
        (check_memory_rate_limit
          { redis_available := false
            window_size := 60
            max_requests := [("translation", 10), ("auth", 5),
              ("default", 20)]
            memory_cache := [("translation:cB", [3])]
            cache_cleanup_interval := 300 } "cA" "translation" 10
          0).2.memory_cache = some [3] := by
  have h := (c6_key_isolation
    { redis_available := false
      window_size := 60
      max_requests := [("translation", 10), ("auth", 5), ("default", 20)]
      memory_cache := [("translation:cB", [3])]
      cache_cleanup_interval := 300 } ⟨[]⟩ "cA" "translation" "cB"
    "translation" 10 0 0 none (Or.inl ⟨rfl, by decide⟩)).1
  rw [h]
  rfl
